import Mathlib

/-!
Verification of the step-SDK execution core: the structured output protocol
(src/output/step-output.ts), the step contract (src/base/base-step.ts,
simple-step.ts, polling-step.ts), the metadata derivation
(src/decorators/step.ts) and the registry dispatch / execution routing
state machine (src/registry/step-registry.ts).

Runtime JavaScript values that cross the process boundary are modelled by a
small JSON value type; TypeScript types are erased at runtime, so lifecycle
methods are modelled as functions into `Except String Json` (an exception
carrying a message, or a returned value).
-/

namespace StepSdk

/-- JSON values, the runtime data that crosses the process boundary.
Numbers are modelled as integers (the only numeric field in the protocol is
the integral millisecond delay `retryAfterMs`). A missing object key is
represented by the key being absent from the field list. -/
inductive Json where
  | null : Json
  | bool : Bool → Json
  | num : Int → Json
  | str : String → Json
  | arr : List Json → Json
  | obj : List (String × Json) → Json

/-- Object fields, as in `Record<string, unknown>`. -/
abbrev JsonObj := List (String × Json)

/-- First value stored under a key, as JavaScript property lookup. -/
def getField : JsonObj → String → Option Json
  | [], _ => none
  | (k, v) :: rest, key => if key = k then some v else getField rest key

/-- A field that is optional in a serialized object: absent when the source
value was `undefined` (JSON.stringify drops such properties). -/
def optField (key : String) : Option Json → JsonObj
  | none => []
  | some v => [(key, v)]

/-! Zod validators from src/output/step-output.ts, modelled as decidable
checks on `Json`. `z.object` accepts any object whose declared fields
validate; unknown keys are allowed (zod strips them). An optional field
passes when absent. -/

/-- Check for `z.string()` on a looked-up field. -/
def isStringField : Option Json → Bool
  | some (Json.str _) => true
  | _ => false

/-- Check for `z.string().optional()` on a looked-up field. -/
def isOptionalStringField : Option Json → Bool
  | none => true
  | some (Json.str _) => true
  | _ => false

/-- Check for `z.record(z.string(), z.any())` on a looked-up field. -/
def isRecordField : Option Json → Bool
  | some (Json.obj _) => true
  | _ => false

/-- Check for `z.record(z.string(), z.any()).optional()`. -/
def isOptionalRecordField : Option Json → Bool
  | none => true
  | some (Json.obj _) => true
  | _ => false

/-- Check for `z.number().optional()`. -/
def isOptionalNumberField : Option Json → Bool
  | none => true
  | some (Json.num _) => true
  | _ => false

/-- SuccessOutputSchema: status literal SUCCESS, optional `data` record. -/
def validSuccessFields (fields : JsonObj) : Bool :=
  isOptionalRecordField (getField fields "data")

/-- FailedOutputSchema: status literal FAILED, `error` string, optional
`errorCode` string. -/
def validFailedFields (fields : JsonObj) : Bool :=
  isStringField (getField fields "error") &&
    isOptionalStringField (getField fields "errorCode")

/-- ApprovalRequiredOutputSchema: status literal APPROVAL_REQUIRED and an
`approvalRequest` object with an optional `context` string. -/
def validApprovalRequiredFields (fields : JsonObj) : Bool :=
  match getField fields "approvalRequest" with
  | some (Json.obj request) => isOptionalStringField (getField request "context")
  | _ => false

/-- TriggeredOutputSchema: status literal TRIGGERED and a `pollingState`
record. -/
def validTriggeredFields (fields : JsonObj) : Bool :=
  isRecordField (getField fields "pollingState")

/-- PollAgainOutputSchema: status literal POLL_AGAIN, a `pollingState`
record and an optional numeric `retryAfterMs`. -/
def validPollAgainFields (fields : JsonObj) : Bool :=
  isRecordField (getField fields "pollingState") &&
    isOptionalNumberField (getField fields "retryAfterMs")

/-- The five status tags of the combined StepOutputSchema discriminated
union. -/
def stepOutputStatusTags : List String :=
  ["SUCCESS", "FAILED", "APPROVAL_REQUIRED", "TRIGGERED", "POLL_AGAIN"]

/-- StepOutputSchema.safeParse(...).success: the combined discriminated
union over the five output shapes, dispatching on the `status` field. A
value that is not an object, has no `status` string, or carries a status
tag outside the recognized five fails validation. -/
def validateStepOutput : Json → Bool
  | Json.obj fields =>
    match getField fields "status" with
    | some (Json.str s) =>
      if s = "SUCCESS" then validSuccessFields fields
      else if s = "FAILED" then validFailedFields fields
      else if s = "APPROVAL_REQUIRED" then validApprovalRequiredFields fields
      else if s = "TRIGGERED" then validTriggeredFields fields
      else if s = "POLL_AGAIN" then validPollAgainFields fields
      else false
    | _ => false
  | _ => false

/-- The status discriminator of a candidate output value, when it is an
object carrying a string `status` field. -/
def statusTagOf : Json → Option String
  | Json.obj fields =>
    match getField fields "status" with
    | some (Json.str s) => some s
    | _ => none
  | _ => none

/-! Helper constructors from src/output/step-output.ts (`StepOutputs`),
as the JSON shapes they produce. An argument left `undefined` in the
TypeScript source is a `none` here and yields no serialized field. -/

namespace StepOutputs

/-- StepOutputs.success(data?). -/
def success (data : Option JsonObj) : Json :=
  Json.obj ([("status", Json.str "SUCCESS")] ++ optField "data" (data.map Json.obj))

/-- StepOutputs.failed(error, errorCode?). -/
def failed (error : String) (errorCode : Option String) : Json :=
  Json.obj ([("status", Json.str "FAILED"), ("error", Json.str error)] ++
    optField "errorCode" (errorCode.map Json.str))

/-- StepOutputs.approvalRequired(request) where request has the declared
shape with an optional `context` string. -/
def approvalRequired (context : Option String) : Json :=
  Json.obj [("status", Json.str "APPROVAL_REQUIRED"),
    ("approvalRequest", Json.obj (optField "context" (context.map Json.str)))]

/-- StepOutputs.triggered(pollingState). -/
def triggered (pollingState : JsonObj) : Json :=
  Json.obj [("status", Json.str "TRIGGERED"), ("pollingState", Json.obj pollingState)]

/-- StepOutputs.pollAgain(pollingState, retryAfterMs?). -/
def pollAgain (pollingState : JsonObj) (retryAfterMs : Option Int) : Json :=
  Json.obj ([("status", Json.str "POLL_AGAIN"), ("pollingState", Json.obj pollingState)] ++
    optField "retryAfterMs" (retryAfterMs.map Json.num))

end StepOutputs

/-! Step contract (src/base). At runtime a lifecycle method either returns
a value or throws; both are modelled by `Except String Json`, the error
carrying the thrown `Error`'s message. -/

/-- ApprovalContextSchema: `{ approved: true, approverId: string }`. The
`approved` field is the literal `true`, so only the approver id varies. -/
structure ApprovalContext where
  approverId : String

/-- A concrete SimpleStep implementation: the author's `run`, and the
`prepare` override when the author supplied one (absence means the base
class default is in effect). -/
structure SimpleStepImpl where
  run : JsonObj → Option ApprovalContext → Except String Json
  prepareOverride : Option (JsonObj → Except String Json)

/-- A concrete PollingStep implementation: the author's `trigger` and
`poll`, and the `prepare` override when supplied. -/
structure PollingStepImpl where
  trigger : JsonObj → Option ApprovalContext → Except String Json
  poll : JsonObj → JsonObj → Except String Json
  prepareOverride : Option (JsonObj → Except String Json)

/-- A step instance. The step kind is detected structurally by
`Step.getData` in src/decorators/step.ts (an instance with both `trigger`
and `poll` methods is polling, otherwise simple), which is exactly the
constructor used here. -/
inductive StepImpl where
  | simple : SimpleStepImpl → StepImpl
  | polling : PollingStepImpl → StepImpl

/-- BaseStep.prepare, the default sentinel (src/base/base-step.ts): a
FAILED output with code PREPARE_NOT_IMPLEMENTED, returned only if routing
ever invokes `prepare` on a step that did not override it. -/
def defaultPrepare : JsonObj → Except String Json :=
  fun _ =>
    Except.ok (StepOutputs.failed "prepare() called but not implemented"
      (some "PREPARE_NOT_IMPLEMENTED"))

/-- The effective `prepare` of a simple step: the override when present,
else the inherited base default. -/
def SimpleStepImpl.prepare (s : SimpleStepImpl) : JsonObj → Except String Json :=
  s.prepareOverride.getD defaultPrepare

/-- SimpleStep.execute (src/base/simple-step.ts): forwards to `run`. -/
def SimpleStepImpl.execute (s : SimpleStepImpl) (params : JsonObj)
    (approval : Option ApprovalContext) : Except String Json :=
  s.run params approval

/-- The effective `prepare` of a polling step. -/
def PollingStepImpl.prepare (p : PollingStepImpl) : JsonObj → Except String Json :=
  p.prepareOverride.getD defaultPrepare

/-- PollingStep.executeTrigger (src/base/polling-step.ts): forwards to
`trigger`. -/
def PollingStepImpl.executeTrigger (p : PollingStepImpl) (params : JsonObj)
    (approval : Option ApprovalContext) : Except String Json :=
  p.trigger params approval

/-- PollingStep.executePoll (src/base/polling-step.ts): forwards to
`poll`. -/
def PollingStepImpl.executePoll (p : PollingStepImpl) (params : JsonObj)
    (pollingState : JsonObj) : Except String Json :=
  p.poll params pollingState

/-- Whether the step overrides the base `prepare`: the check
`this.prepare !== BaseStep.prototype.prepare` in `Step.getData`
(src/decorators/step.ts), here the presence of a prepare override. -/
def overridesPrepare : StepImpl → Bool
  | StepImpl.simple s => s.prepareOverride.isSome
  | StepImpl.polling p => p.prepareOverride.isSome

/-- The `requiresApproval` flag computed once at metadata construction by
`Step.getData` (src/decorators/step.ts): true exactly when the step
overrides `prepare`. -/
def StepImpl.requiresApproval (step : StepImpl) : Bool :=
  overridesPrepare step

/-! Registry routing (src/registry/step-registry.ts). -/

/-- StepRegistry.routeSimpleStep: the three-row simple-step decision
table. Note the no-approval row invokes `execute(params, undefined)` —
the request's approval context is not forwarded on that row. -/
def routeSimpleStep (step : SimpleStepImpl) (params : JsonObj)
    (requiresApproval : Bool) (approvalContext : Option ApprovalContext) :
    Except String Json :=
  if !requiresApproval then
    step.execute params none
  else
    match approvalContext with
    | none => step.prepare params
    | some ac => step.execute params (some ac)

/-- StepRegistry.routePollingStep: the four-row polling decision table;
presence of `pollingState` is checked first and wins over everything
else. -/
def routePollingStep (step : PollingStepImpl) (params : JsonObj)
    (requiresApproval : Bool) (approvalContext : Option ApprovalContext)
    (pollingState : Option JsonObj) : Except String Json :=
  match pollingState with
  | some st => step.executePoll params st
  | none =>
    if !requiresApproval then
      step.executeTrigger params none
    else
      match approvalContext with
      | none => step.prepare params
      | some ac => step.executeTrigger params (some ac)

/-- StepRegistry.routeExecution: dispatch on the step kind recorded in the
metadata (structurally derived from the instance by the decorator, hence
the constructor of `StepImpl`), with `requiresApproval` read from the
metadata computed by `Step.getData`. -/
def routeExecution (step : StepImpl) (params : JsonObj)
    (approvalContext : Option ApprovalContext) (pollingState : Option JsonObj) :
    Except String Json :=
  match step with
  | StepImpl.simple s =>
    routeSimpleStep s params (StepImpl.requiresApproval (StepImpl.simple s)) approvalContext
  | StepImpl.polling p =>
    routePollingStep p params (StepImpl.requiresApproval (StepImpl.polling p))
      approvalContext pollingState

/-! Registry dispatch and error conversion
(src/registry/step-registry.ts, executeStep / constructor / writeOutput). -/

/-- A registered step class: the metadata published by its decorator (the
type identifier and the declared zod schema, whose `safeParse` either
returns the validated params or a validation error message) together with
its constructor, which either produces an instance or throws. -/
structure StepClass where
  type : String
  schema : JsonObj → Except String JsonObj
  construct : Except String StepImpl

/-- Map.get on the registry's steps map (an insertion-ordered key-value
list, as a JavaScript Map). -/
def lookupStep : List (String × StepClass) → String → Option StepClass
  | [], _ => none
  | (k, v) :: rest, t => if t = k then some v else lookupStep rest t

/-- Map.set: overwrite the value of an existing key in place, otherwise
append the new entry. -/
def mapSet : List (String × StepClass) → String → StepClass → List (String × StepClass)
  | [], key, value => [(key, value)]
  | (k, v) :: rest, key, value =>
    if k = key then (key, value) :: rest else (k, v) :: mapSet rest key value

/-- The StepRegistry constructor's registration loop: construct each class
(the constructor may throw, which propagates) and `set` it under its
metadata type identifier. -/
def registerSteps : List StepClass → List (String × StepClass) →
    Except String (List (String × StepClass))
  | [], m => Except.ok m
  | cls :: rest, m => do
    let _ ← cls.construct
    registerSteps rest (mapSet m cls.type cls)

/-- Registry construction from a class list, starting from an empty map. -/
def initRegistry (classes : List StepClass) : Except String (List (String × StepClass)) :=
  Except.ok [] >>= registerSteps classes

/-- The steps map the constructor builds when every construction
succeeds. -/
def buildSteps (classes : List StepClass) : List (String × StepClass) :=
  classes.foldl (fun m cls => mapSet m cls.type cls) []

/-- The body of executeStep's try block after the step class is resolved:
construct the instance, validate params with the step's schema — a
validation failure becomes a FAILED output with code INVALID_PARAMS whose
message wraps the underlying error detail — and otherwise route to the
chosen lifecycle method. An exception anywhere in the block escapes as the
error of the `Except`. -/
def executeFoundAttempt (cls : StepClass) (params : JsonObj)
    (approvalContext : Option ApprovalContext) (pollingState : Option JsonObj) :
    Except String Json := do
  let inst ← cls.construct
  match cls.schema params with
  | Except.error msg =>
    pure (StepOutputs.failed ("Invalid params: " ++ msg) (some "INVALID_PARAMS"))
  | Except.ok validatedParams =>
    routeExecution inst validatedParams approvalContext pollingState

/-- The catch clause of executeStep: any exception raised inside the try
block is converted to a FAILED output with code EXECUTION_ERROR carrying
the exception's message. -/
def catchToFailed : Except String Json → Json
  | Except.ok output => output
  | Except.error msg => StepOutputs.failed msg (some "EXECUTION_ERROR")

/-- Resolution plus the guarded execution for a resolved class. -/
def executeFound (cls : StepClass) (params : JsonObj)
    (approvalContext : Option ApprovalContext) (pollingState : Option JsonObj) : Json :=
  catchToFailed (executeFoundAttempt cls params approvalContext pollingState)

/-- StepRegistry.executeStep: resolve the request's `type` in the steps
map — an unknown type yields a FAILED output with code STEP_NOT_FOUND and
nothing else runs — then execute the resolved class. The returned value is
the single output the registry writes. -/
def executeStep (steps : List (String × StepClass)) (type' : String)
    (params : JsonObj) (approvalContext : Option ApprovalContext)
    (pollingState : Option JsonObj) : Json :=
  match lookupStep steps type' with
  | none =>
    StepOutputs.failed ("No step registered with type: " ++ type') (some "STEP_NOT_FOUND")
  | some cls => executeFound cls params approvalContext pollingState

/-- StepRegistry.writeOutput: the output value is serialized to the output
file exactly as given (JSON.stringify of the value, after directory
creation); no schema validation is performed on it. The result is the JSON
value whose serialization lands in the file. -/
def writeOutput (output : Json) : Json :=
  output

/-- The last class of the list declaring the given type identifier — the
one a later registration leaves in the map. -/
def lastWithType : List StepClass → String → Option StepClass
  | [], _ => none
  | cls :: rest, t =>
    match lastWithType rest t with
    | some cls' => some cls'
    | none => if cls.type = t then some cls else none

/-! Concrete step fixtures, used to evaluate the model at specific
inputs. Their lifecycle methods return values that record which method ran
and which approval argument it received. -/

/-- A schema whose safeParse accepts everything (like `z.record`). -/
def okSchema : JsonObj → Except String JsonObj := fun params => Except.ok params

/-- A `run` that reports whether it received an approval context. -/
def observeRun : JsonObj → Option ApprovalContext → Except String Json :=
  fun _ approval => Except.ok (Json.bool approval.isSome)

/-- A `prepare` override returning a recognizable marker. -/
def observePrepare : JsonObj → Except String Json :=
  fun _ => Except.ok (Json.str "prepared")

/-- A `trigger` that reports whether it received an approval context. -/
def observeTrigger : JsonObj → Option ApprovalContext → Except String Json :=
  fun _ approval => Except.ok (Json.arr [Json.str "triggered", Json.bool approval.isSome])

/-- A `poll` that tags the polling state it received. -/
def observePoll : JsonObj → JsonObj → Except String Json :=
  fun _ st => Except.ok (Json.obj (("polled", Json.bool true) :: st))

/-- Simple step without a prepare override. -/
def echoCls : StepClass :=
  ⟨"echo", okSchema, Except.ok (StepImpl.simple ⟨observeRun, none⟩)⟩

/-- A second class declaring the same type identifier as `echoCls`. -/
def echoCls2 : StepClass :=
  ⟨"echo", okSchema,
    Except.ok (StepImpl.simple ⟨fun _ _ => Except.ok (Json.str "second"), none⟩)⟩

/-- Simple step with a prepare override (requires approval). -/
def approvalEchoCls : StepClass :=
  ⟨"approval-echo", okSchema,
    Except.ok (StepImpl.simple ⟨observeRun, some observePrepare⟩)⟩

/-- Polling step without a prepare override. -/
def deployCls : StepClass :=
  ⟨"deploy", okSchema,
    Except.ok (StepImpl.polling ⟨observeTrigger, observePoll, none⟩)⟩

/-- Polling step with a prepare override (requires approval). -/
def approvalDeployCls : StepClass :=
  ⟨"approval-deploy", okSchema,
    Except.ok (StepImpl.polling ⟨observeTrigger, observePoll, some observePrepare⟩)⟩

/-- A step whose `run` returns a value outside the StepOutputSchema
union (possible at runtime, where TypeScript types are erased). -/
def bogusOutputCls : StepClass :=
  ⟨"bogus-output", okSchema,
    Except.ok (StepImpl.simple
      ⟨fun _ _ => Except.ok (Json.obj [("status", Json.str "BOGUS")]), none⟩)⟩

/-- A step whose constructor throws. -/
def throwingCtorCls : StepClass :=
  ⟨"throwing", okSchema, Except.error "constructor exploded"⟩

/-- A step whose `run` throws. -/
def throwingRunCls : StepClass :=
  ⟨"throwing-run", okSchema,
    Except.ok (StepImpl.simple ⟨fun _ _ => Except.error "run exploded", none⟩)⟩

/-- A step whose schema rejects every params object. -/
def strictSchemaCls : StepClass :=
  ⟨"strict", fun _ => Except.error "message field is required",
    Except.ok (StepImpl.simple ⟨observeRun, none⟩)⟩

/-- A registry map holding all fixtures under their type identifiers. -/
def fixtureRegistry : List (String × StepClass) :=
  [("echo", echoCls), ("approval-echo", approvalEchoCls), ("deploy", deployCls),
   ("approval-deploy", approvalDeployCls), ("bogus-output", bogusOutputCls),
   ("throwing", throwingCtorCls), ("throwing-run", throwingRunCls),
   ("strict", strictSchemaCls)]

/-! Theorems. -/

/-- Bind on `Except` applied to a success, reduced. -/
theorem except_bind_ok {α β : Type} (a : α) (f : α → Except String β) :
    (Except.ok (ε := String) a >>= f) = f a :=
  rfl

/-- Resolving a type present in the steps map hands the request to the
guarded execution of the resolved class. -/
theorem executeStep_found (steps : List (String × StepClass)) (t : String)
    (cls : StepClass) (params : JsonObj) (ac : Option ApprovalContext)
    (ps : Option JsonObj) (h : lookupStep steps t = some cls) :
    executeStep steps t params ac ps = executeFound cls params ac ps := by
  unfold executeStep
  rw [h]

/-- When construction and schema validation succeed, the guarded execution
is the caught result of the routed lifecycle call on the validated
params. -/
theorem executeFound_route (cls : StepClass) (inst : StepImpl)
    (params validated : JsonObj) (ac : Option ApprovalContext) (ps : Option JsonObj)
    (h2 : cls.construct = Except.ok inst) (h3 : cls.schema params = Except.ok validated) :
    executeFound cls params ac ps = catchToFailed (routeExecution inst validated ac ps) := by
  unfold executeFound executeFoundAttempt
  rw [h2, except_bind_ok, h3]

/-- C9: every output built by a `StepOutputs` helper from arguments of its
declared types validates against the combined StepOutputSchema; a value
without a string status tag, or whose status tag is not among the five
recognized tags, fails validation. -/
theorem step_output_schema_round_trip :
    (∀ data, validateStepOutput (StepOutputs.success data) = true)
    ∧ (∀ error errorCode, validateStepOutput (StepOutputs.failed error errorCode) = true)
    ∧ (∀ context, validateStepOutput (StepOutputs.approvalRequired context) = true)
    ∧ (∀ pollingState, validateStepOutput (StepOutputs.triggered pollingState) = true)
    ∧ (∀ pollingState retryAfterMs,
        validateStepOutput (StepOutputs.pollAgain pollingState retryAfterMs) = true)
    ∧ (∀ j, statusTagOf j = none → validateStepOutput j = false)
    ∧ (∀ j s, statusTagOf j = some s → s ∉ stepOutputStatusTags →
        validateStepOutput j = false) := by
  refine ⟨?_, ?_, ?_, ?_, ?_, ?_, ?_⟩
  · intro data; cases data <;> rfl
  · intro error errorCode; cases errorCode <;> rfl
  · intro context; cases context <;> rfl
  · intro pollingState; rfl
  · intro pollingState retryAfterMs; cases retryAfterMs <;> rfl
  · intro j h
    cases j with
    | obj fields =>
      simp only [statusTagOf] at h
      simp only [validateStepOutput]
      rcases hf : getField fields "status" with _ | v
      · rfl
      · rw [hf] at h
        cases v with
        | str s => simp at h
        | null => rfl
        | bool b => rfl
        | num n => rfl
        | arr xs => rfl
        | obj o => rfl
    | null => rfl
    | bool b => rfl
    | num n => rfl
    | str s => rfl
    | arr xs => rfl
  · intro j s h hs
    cases j with
    | obj fields =>
      simp only [statusTagOf] at h
      simp only [validateStepOutput]
      rcases hf : getField fields "status" with _ | v
      · rw [hf] at h
      · rw [hf] at h
        cases v with
        | str s' =>
          have hss : s' = s := by simpa using h
          subst hss
          simp only [stepOutputStatusTags, List.mem_cons, List.not_mem_nil, or_false] at hs
          push_neg at hs
          obtain ⟨h1, h2, h3, h4, h5⟩ := hs
          simp only [if_neg h1, if_neg h2, if_neg h3, if_neg h4, if_neg h5]
        | null => simp at h
        | bool b => simp at h
        | num n => simp at h
        | arr xs => simp at h
        | obj o => simp at h
    | null => simp [statusTagOf] at h
    | bool b => simp [statusTagOf] at h
    | num n => simp [statusTagOf] at h
    | str s' => simp [statusTagOf] at h
    | arr xs => simp [statusTagOf] at h

/-- Witness for C9 at concrete outputs: a helper-built value validates and
a value with an unrecognized status tag fails. -/
theorem step_output_schema_round_trip_witness :
    validateStepOutput (StepOutputs.success none) = true
    ∧ validateStepOutput (Json.obj [("status", Json.str "BOGUS")]) = false :=
  ⟨step_output_schema_round_trip.1 none,
   step_output_schema_round_trip.2.2.2.2.2.2 (Json.obj [("status", Json.str "BOGUS")])
     "BOGUS" rfl (by decide)⟩

/-- C1: for every registered polling step and EXECUTE request whose params
pass schema validation, exactly one lifecycle method is invoked, chosen by
the four-row polling decision table: present pollingState always routes to
`poll` (regardless of approval requirement and approval context);
otherwise requiresApproval = false routes to `trigger` with no approval
context, requiresApproval = true without approval context routes to
`prepare`, and requiresApproval = true with approval context routes to
`trigger` with that context. The written output is the routed method's
result (converted by the catch clause if it throws), for every possible
implementation of the other methods — so no other lifecycle method can
contribute to it. -/
theorem polling_routing_table :
    (∀ (steps : List (String × StepClass)) (t : String) (cls : StepClass)
        (p : PollingStepImpl) (params validated : JsonObj)
        (ac : Option ApprovalContext) (st : JsonObj),
        lookupStep steps t = some cls →
        cls.construct = Except.ok (StepImpl.polling p) →
        cls.schema params = Except.ok validated →
        executeStep steps t params ac (some st) = catchToFailed (p.poll validated st))
    ∧ (∀ (steps : List (String × StepClass)) (t : String) (cls : StepClass)
        (trig : JsonObj → Option ApprovalContext → Except String Json)
        (pol : JsonObj → JsonObj → Except String Json)
        (params validated : JsonObj) (ac : Option ApprovalContext),
        lookupStep steps t = some cls →
        cls.construct = Except.ok (StepImpl.polling ⟨trig, pol, none⟩) →
        cls.schema params = Except.ok validated →
        executeStep steps t params ac none = catchToFailed (trig validated none))
    ∧ (∀ (steps : List (String × StepClass)) (t : String) (cls : StepClass)
        (trig : JsonObj → Option ApprovalContext → Except String Json)
        (pol : JsonObj → JsonObj → Except String Json)
        (prep : JsonObj → Except String Json) (params validated : JsonObj),
        lookupStep steps t = some cls →
        cls.construct = Except.ok (StepImpl.polling ⟨trig, pol, some prep⟩) →
        cls.schema params = Except.ok validated →
        executeStep steps t params none none = catchToFailed (prep validated))
    ∧ (∀ (steps : List (String × StepClass)) (t : String) (cls : StepClass)
        (trig : JsonObj → Option ApprovalContext → Except String Json)
        (pol : JsonObj → JsonObj → Except String Json)
        (prep : JsonObj → Except String Json) (params validated : JsonObj)
        (c : ApprovalContext),
        lookupStep steps t = some cls →
        cls.construct = Except.ok (StepImpl.polling ⟨trig, pol, some prep⟩) →
        cls.schema params = Except.ok validated →
        executeStep steps t params (some c) none =
          catchToFailed (trig validated (some c))) := by
  refine ⟨?_, ?_, ?_, ?_⟩
  · intro steps t cls p params validated ac st h1 h2 h3
    rw [executeStep_found steps t cls params ac (some st) h1,
      executeFound_route cls _ params validated ac (some st) h2 h3]
    rfl
  · intro steps t cls trig pol params validated ac h1 h2 h3
    rw [executeStep_found steps t cls params ac none h1,
      executeFound_route cls _ params validated ac none h2 h3]
    rfl
  · intro steps t cls trig pol prep params validated h1 h2 h3
    rw [executeStep_found steps t cls params none none h1,
      executeFound_route cls _ params validated none none h2 h3]
    rfl
  · intro steps t cls trig pol prep params validated c h1 h2 h3
    rw [executeStep_found steps t cls params (some c) none h1,
      executeFound_route cls _ params validated (some c) none h2 h3]
    rfl

/-- Witness for C1: all four polling rows evaluated on the fixture
registry. The first row carries an approval context and a prepare
override, yet polls; the second carries an approval context but no
override, yet triggers without it. -/
theorem polling_routing_table_witness :
    executeStep fixtureRegistry "approval-deploy" [] (some ⟨"u1"⟩)
        (some [("jobId", Json.str "5")]) =
      Json.obj [("polled", Json.bool true), ("jobId", Json.str "5")]
    ∧ executeStep fixtureRegistry "deploy" [] (some ⟨"u1"⟩) none =
      Json.arr [Json.str "triggered", Json.bool false]
    ∧ executeStep fixtureRegistry "approval-deploy" [] none none = Json.str "prepared"
    ∧ executeStep fixtureRegistry "approval-deploy" [] (some ⟨"u2"⟩) none =
      Json.arr [Json.str "triggered", Json.bool true] := by
  refine ⟨?_, ?_, ?_, ?_⟩
  · exact (polling_routing_table.1 fixtureRegistry "approval-deploy" approvalDeployCls
      ⟨observeTrigger, observePoll, some observePrepare⟩ [] [] (some ⟨"u1"⟩)
      [("jobId", Json.str "5")] rfl rfl rfl).trans rfl
  · exact (polling_routing_table.2.1 fixtureRegistry "deploy" deployCls
      observeTrigger observePoll [] [] (some ⟨"u1"⟩) rfl rfl rfl).trans rfl
  · exact (polling_routing_table.2.2.1 fixtureRegistry "approval-deploy" approvalDeployCls
      observeTrigger observePoll observePrepare [] [] rfl rfl rfl).trans rfl
  · exact (polling_routing_table.2.2.2 fixtureRegistry "approval-deploy" approvalDeployCls
      observeTrigger observePoll observePrepare [] [] ⟨"u2"⟩ rfl rfl rfl).trans rfl

/-- C2: for every registered simple step and EXECUTE request whose params
pass schema validation, exactly one lifecycle method is invoked, chosen by
the three-row simple-step decision table: requiresApproval = false routes
to `run`, requiresApproval = true without approval context routes to
`prepare`, and requiresApproval = true with approval context routes to
`run` with that context. -/
theorem simple_routing_table :
    (∀ (steps : List (String × StepClass)) (t : String) (cls : StepClass)
        (run : JsonObj → Option ApprovalContext → Except String Json)
        (params validated : JsonObj) (ac : Option ApprovalContext)
        (ps : Option JsonObj),
        lookupStep steps t = some cls →
        cls.construct = Except.ok (StepImpl.simple ⟨run, none⟩) →
        cls.schema params = Except.ok validated →
        executeStep steps t params ac ps = catchToFailed (run validated none))
    ∧ (∀ (steps : List (String × StepClass)) (t : String) (cls : StepClass)
        (run : JsonObj → Option ApprovalContext → Except String Json)
        (prep : JsonObj → Except String Json) (params validated : JsonObj)
        (ps : Option JsonObj),
        lookupStep steps t = some cls →
        cls.construct = Except.ok (StepImpl.simple ⟨run, some prep⟩) →
        cls.schema params = Except.ok validated →
        executeStep steps t params none ps = catchToFailed (prep validated))
    ∧ (∀ (steps : List (String × StepClass)) (t : String) (cls : StepClass)
        (run : JsonObj → Option ApprovalContext → Except String Json)
        (prep : JsonObj → Except String Json) (params validated : JsonObj)
        (c : ApprovalContext) (ps : Option JsonObj),
        lookupStep steps t = some cls →
        cls.construct = Except.ok (StepImpl.simple ⟨run, some prep⟩) →
        cls.schema params = Except.ok validated →
        executeStep steps t params (some c) ps =
          catchToFailed (run validated (some c))) := by
  refine ⟨?_, ?_, ?_⟩
  · intro steps t cls run params validated ac ps h1 h2 h3
    rw [executeStep_found steps t cls params ac ps h1,
      executeFound_route cls _ params validated ac ps h2 h3]
    rfl
  · intro steps t cls run prep params validated ps h1 h2 h3
    rw [executeStep_found steps t cls params none ps h1,
      executeFound_route cls _ params validated none ps h2 h3]
    rfl
  · intro steps t cls run prep params validated c ps h1 h2 h3
    rw [executeStep_found steps t cls params (some c) ps h1,
      executeFound_route cls _ params validated (some c) ps h2 h3]
    rfl

/-- Witness for C2: all three simple rows evaluated on the fixture
registry. -/
theorem simple_routing_table_witness :
    executeStep fixtureRegistry "echo" [] none none = Json.bool false
    ∧ executeStep fixtureRegistry "approval-echo" [] none none = Json.str "prepared"
    ∧ executeStep fixtureRegistry "approval-echo" [] (some ⟨"admin"⟩) none =
      Json.bool true := by
  refine ⟨?_, ?_, ?_⟩
  · exact (simple_routing_table.1 fixtureRegistry "echo" echoCls observeRun
      [] [] none none rfl rfl rfl).trans rfl
  · exact (simple_routing_table.2.1 fixtureRegistry "approval-echo" approvalEchoCls
      observeRun observePrepare [] [] none rfl rfl rfl).trans rfl
  · exact (simple_routing_table.2.2 fixtureRegistry "approval-echo" approvalEchoCls
      observeRun observePrepare [] [] ⟨"admin"⟩ none rfl rfl rfl).trans rfl

/-- C4 counterexample: a simple step with requiresApproval = false whose
`run` reports the approval argument it received. With an approval context
present in the request, run is invoked — but with `undefined` as its
approval argument (routeSimpleStep passes `undefined`, not the request's
context), so the output differs from what forwarding the context would
produce. -/
theorem approval_not_forwarded_cex :
    executeStep fixtureRegistry "echo" [] (some ⟨"admin"⟩) none = Json.bool false
    ∧ catchToFailed (observeRun [] (some ⟨"admin"⟩)) = Json.bool true
    ∧ executeStep fixtureRegistry "echo" [] (some ⟨"admin"⟩) none
        ≠ catchToFailed (observeRun [] (some ⟨"admin"⟩)) := by
  refine ⟨rfl, rfl, ?_⟩
  intro h
  have hb : Json.bool false = Json.bool true := h
  injection hb with hb'
  exact Bool.noConfusion hb'

/-- C4 amended: for every registered simple step with requiresApproval =
false and every EXECUTE request whose params pass schema validation, run
is always invoked whether approvalContext is present or absent, but a
present approvalContext is not forwarded: run receives `undefined`
(`none`) as its approval argument, and the output is therefore independent
of the request's approval context. -/
theorem run_invoked_without_forwarding :
    ∀ (steps : List (String × StepClass)) (t : String) (cls : StepClass)
      (run : JsonObj → Option ApprovalContext → Except String Json)
      (params validated : JsonObj) (ac : Option ApprovalContext)
      (ps : Option JsonObj),
      lookupStep steps t = some cls →
      cls.construct = Except.ok (StepImpl.simple ⟨run, none⟩) →
      cls.schema params = Except.ok validated →
      executeStep steps t params ac ps = catchToFailed (run validated none)
      ∧ executeStep steps t params ac ps = executeStep steps t params none ps := by
  intro steps t cls run params validated ac ps h1 h2 h3
  constructor
  · rw [executeStep_found steps t cls params ac ps h1,
      executeFound_route cls _ params validated ac ps h2 h3]
    rfl
  · rw [executeStep_found steps t cls params ac ps h1,
      executeFound_route cls _ params validated ac ps h2 h3,
      executeStep_found steps t cls params none ps h1,
      executeFound_route cls _ params validated none ps h2 h3]
    rfl

/-- Witness for the amended C4 at a concrete approved request. -/
theorem run_invoked_without_forwarding_witness :
    executeStep fixtureRegistry "echo" [] (some ⟨"root"⟩) none =
      catchToFailed (observeRun [] none)
    ∧ executeStep fixtureRegistry "echo" [] (some ⟨"root"⟩) none =
      executeStep fixtureRegistry "echo" [] none none :=
  run_invoked_without_forwarding fixtureRegistry "echo" echoCls observeRun
    [] [] (some ⟨"root"⟩) none rfl rfl rfl

/-- C5: the derived requiresApproval flag is true exactly when the step
overrides the base prepare (the flag is computed once, from the immutable
instance shape, by Step.getData at metadata construction). Consequently,
for a registered step that does not override prepare, every routing path
invokes run, trigger or poll — never the base default prepare — so its
PREPARE_NOT_IMPLEMENTED sentinel (last conjunct) cannot be produced by
registry routing. -/
theorem requires_approval_iff_overridden :
    (∀ step : StepImpl, StepImpl.requiresApproval step = overridesPrepare step)
    ∧ (∀ (run : JsonObj → Option ApprovalContext → Except String Json)
        (params : JsonObj) (ac : Option ApprovalContext) (ps : Option JsonObj),
        routeExecution (StepImpl.simple ⟨run, none⟩) params ac ps = run params none)
    ∧ (∀ (trig : JsonObj → Option ApprovalContext → Except String Json)
        (pol : JsonObj → JsonObj → Except String Json)
        (params : JsonObj) (ac : Option ApprovalContext),
        routeExecution (StepImpl.polling ⟨trig, pol, none⟩) params ac none =
          trig params none)
    ∧ (∀ (trig : JsonObj → Option ApprovalContext → Except String Json)
        (pol : JsonObj → JsonObj → Except String Json)
        (params : JsonObj) (ac : Option ApprovalContext) (st : JsonObj),
        routeExecution (StepImpl.polling ⟨trig, pol, none⟩) params ac (some st) =
          pol params st)
    ∧ (∀ params, defaultPrepare params =
        Except.ok (StepOutputs.failed "prepare() called but not implemented"
          (some "PREPARE_NOT_IMPLEMENTED"))) := by
  refine ⟨?_, ?_, ?_, ?_, ?_⟩
  · intro step; rfl
  · intro run params ac ps; rfl
  · intro trig pol params ac; rfl
  · intro trig pol params ac st; rfl
  · intro params; rfl

/-- C6: an EXECUTE request whose type matches no registered step
identifier yields a FAILED output with code STEP_NOT_FOUND carrying the
unknown type in its message, independent of every other part of the
request — no step is constructed and no lifecycle method runs. -/
theorem step_not_found_on_unknown_type :
    ∀ (steps : List (String × StepClass)) (t : String) (params : JsonObj)
      (ac : Option ApprovalContext) (ps : Option JsonObj),
      lookupStep steps t = none →
      executeStep steps t params ac ps =
        StepOutputs.failed ("No step registered with type: " ++ t)
          (some "STEP_NOT_FOUND") := by
  intro steps t params ac ps h
  unfold executeStep
  rw [h]

/-- Witness for C6: a type absent from the fixture registry. -/
theorem step_not_found_witness :
    executeStep fixtureRegistry "no-such-step" [] none none =
      StepOutputs.failed "No step registered with type: no-such-step"
        (some "STEP_NOT_FOUND") :=
  (step_not_found_on_unknown_type fixtureRegistry "no-such-step" [] none none
    rfl).trans rfl

/-- C7: when the resolved step's schema rejects the request params, the
output is FAILED with code INVALID_PARAMS and a message wrapping the
underlying validation error detail after the "Invalid params: " marker;
the result is the same for every step implementation, so no lifecycle
method contributes to it. -/
theorem invalid_params_on_schema_failure :
    ∀ (steps : List (String × StepClass)) (t : String) (cls : StepClass)
      (inst : StepImpl) (params : JsonObj) (msg : String)
      (ac : Option ApprovalContext) (ps : Option JsonObj),
      lookupStep steps t = some cls →
      cls.construct = Except.ok inst →
      cls.schema params = Except.error msg →
      executeStep steps t params ac ps =
        StepOutputs.failed ("Invalid params: " ++ msg) (some "INVALID_PARAMS")
      ∧ ∃ marker, "Invalid params: " ++ msg = marker ++ msg := by
  intro steps t cls inst params msg ac ps h1 h2 h3
  constructor
  · rw [executeStep_found steps t cls params ac ps h1]
    unfold executeFound executeFoundAttempt
    rw [h2, except_bind_ok, h3]
    rfl
  · exact ⟨"Invalid params: ", rfl⟩

/-- Witness for C7 on the fixture whose schema rejects everything. -/
theorem invalid_params_witness :
    executeStep fixtureRegistry "strict" [] none none =
      StepOutputs.failed "Invalid params: message field is required"
        (some "INVALID_PARAMS") :=
  ((invalid_params_on_schema_failure fixtureRegistry "strict" strictSchemaCls
    (StepImpl.simple ⟨observeRun, none⟩) [] "message field is required" none none
    rfl rfl rfl).1).trans rfl

/-- C8: every exception raised inside the try block of executeStep — in
step construction or in routing / lifecycle-method invocation — is caught
and becomes a FAILED output with code EXECUTION_ERROR carrying the
exception's message; executeStep is a total function into output values,
so the exception never propagates. -/
theorem execution_error_caught :
    (∀ (steps : List (String × StepClass)) (t : String) (cls : StepClass)
        (params : JsonObj) (ac : Option ApprovalContext) (ps : Option JsonObj)
        (e : String),
        lookupStep steps t = some cls →
        cls.construct = Except.error e →
        executeStep steps t params ac ps =
          StepOutputs.failed e (some "EXECUTION_ERROR"))
    ∧ (∀ (steps : List (String × StepClass)) (t : String) (cls : StepClass)
        (inst : StepImpl) (params validated : JsonObj)
        (ac : Option ApprovalContext) (ps : Option JsonObj) (e : String),
        lookupStep steps t = some cls →
        cls.construct = Except.ok inst →
        cls.schema params = Except.ok validated →
        routeExecution inst validated ac ps = Except.error e →
        executeStep steps t params ac ps =
          StepOutputs.failed e (some "EXECUTION_ERROR")) := by
  constructor
  · intro steps t cls params ac ps e h1 h2
    rw [executeStep_found steps t cls params ac ps h1]
    unfold executeFound executeFoundAttempt
    rw [h2]
    rfl
  · intro steps t cls inst params validated ac ps e h1 h2 h3 h4
    rw [executeStep_found steps t cls params ac ps h1,
      executeFound_route cls inst params validated ac ps h2 h3, h4]
    rfl

/-- Witness for C8: a throwing constructor and a throwing run, both caught
and converted. -/
theorem execution_error_caught_witness :
    executeStep fixtureRegistry "throwing" [] none none =
      StepOutputs.failed "constructor exploded" (some "EXECUTION_ERROR")
    ∧ executeStep fixtureRegistry "throwing-run" [] none none =
      StepOutputs.failed "run exploded" (some "EXECUTION_ERROR") :=
  ⟨execution_error_caught.1 fixtureRegistry "throwing" throwingCtorCls [] none none
      "constructor exploded" rfl rfl,
   execution_error_caught.2 fixtureRegistry "throwing-run" throwingRunCls
      (StepImpl.simple ⟨fun _ _ => Except.error "run exploded", none⟩) [] [] none none
      "run exploded" rfl rfl rfl rfl⟩

/-- C3 counterexample: a registered step whose run returns a value with an
unrecognized status tag (possible at runtime, where the TypeScript return
types are erased). The value fails StepOutputSchema validation, yet the
registry writes it to the output file unchanged — its status tag is still
"BOGUS", not FAILED — because writeOutput performs no validation. -/
theorem output_validation_missing_cex :
    validateStepOutput (Json.obj [("status", Json.str "BOGUS")]) = false
    ∧ executeStep fixtureRegistry "bogus-output" [] none none =
      Json.obj [("status", Json.str "BOGUS")]
    ∧ statusTagOf (writeOutput (executeStep fixtureRegistry "bogus-output" [] none none)) =
      some "BOGUS" :=
  ⟨rfl, rfl, rfl⟩

/-- C3 amended: the registry performs no output-schema validation before
serialization: writeOutput writes exactly the value it is given, and the
routed call's result — whether or not it validates against the combined
StepOutputSchema — is serialized to the output file unchanged, never
converted to a FAILED result by the registry. -/
theorem output_written_through_unchanged :
    (∀ output : Json, writeOutput output = output)
    ∧ (∀ (steps : List (String × StepClass)) (t : String) (cls : StepClass)
        (run : JsonObj → Option ApprovalContext → Except String Json)
        (params validated : JsonObj) (out : Json) (ps : Option JsonObj),
        lookupStep steps t = some cls →
        cls.construct = Except.ok (StepImpl.simple ⟨run, none⟩) →
        cls.schema params = Except.ok validated →
        run validated none = Except.ok out →
        writeOutput (executeStep steps t params none ps) = out) := by
  constructor
  · intro output; rfl
  · intro steps t cls run params validated out ps h1 h2 h3 h4
    rw [writeOutput, executeStep_found steps t cls params none ps h1,
      executeFound_route cls _ params validated none ps h2 h3]
    show catchToFailed (run validated none) = out
    rw [h4]
    rfl

/-- Witness for the amended C3: the invalid value of the counterexample
fixture reaches the output file as-is. -/
theorem output_written_through_unchanged_witness :
    writeOutput (executeStep fixtureRegistry "bogus-output" [] none none) =
      Json.obj [("status", Json.str "BOGUS")] :=
  output_written_through_unchanged.2 fixtureRegistry "bogus-output" bogusOutputCls
    (fun _ _ => Except.ok (Json.obj [("status", Json.str "BOGUS")])) [] []
    (Json.obj [("status", Json.str "BOGUS")]) none rfl rfl rfl rfl


/-- Map.set semantics on lookup: the freshly set key maps to the new
value; every other key is untouched. -/
theorem lookupStep_mapSet (m : List (String × StepClass)) (key t : String)
    (value : StepClass) :
    lookupStep (mapSet m key value) t =
      if t = key then some value else lookupStep m t := by
  induction m with
  | nil => rfl
  | cons kv rest ih =>
    obtain ⟨k, v⟩ := kv
    by_cases hk : k = key
    · subst hk
      simp only [mapSet, if_pos rfl, lookupStep]
      by_cases ht : t = k
      · simp [ht]
      · simp [ht]
    · simp only [mapSet, if_neg hk, lookupStep, ih]
      by_cases ht1 : t = k
      · by_cases ht2 : t = key
        · exact absurd (ht1.symm.trans ht2) hk
        · simp [ht1, ht2, hk]
      · simp [ht1]

/-- The registration fold resolves a type to the last class of the list
declaring it, falling back to the starting map. -/
theorem lookupStep_foldl (classes : List StepClass)
    (m : List (String × StepClass)) (t : String) :
    lookupStep (classes.foldl (fun acc cls => mapSet acc cls.type cls) m) t =
      match lastWithType classes t with
      | some cls => some cls
      | none => lookupStep m t := by
  induction classes generalizing m with
  | nil => rfl
  | cons c rest ih =>
    rw [List.foldl_cons, ih]
    cases hl : lastWithType rest t with
    | some c' => simp [lastWithType, hl]
    | none =>
      simp only [lastWithType, hl, lookupStep_mapSet]
      by_cases hc : c.type = t
      · rw [if_pos hc, if_pos hc.symm]
      · rw [if_neg hc, if_neg (fun h => hc h.symm)]

/-- When every listed class constructs successfully, the registration loop
raises nothing and produces the folded map. -/
theorem registerSteps_ok (classes : List StepClass) (m : List (String × StepClass))
    (h : ∀ c ∈ classes, ∃ inst, c.construct = Except.ok inst) :
    registerSteps classes m =
      Except.ok (classes.foldl (fun acc cls => mapSet acc cls.type cls) m) := by
  induction classes generalizing m with
  | nil => rfl
  | cons c rest ih =>
    obtain ⟨inst, hi⟩ := h c (List.mem_cons_self c rest)
    unfold registerSteps
    rw [hi, except_bind_ok]
    exact ih (mapSet m c.type c) (fun c' hc' => h c' (List.mem_cons_of_mem c hc'))

/-- C10: registry construction from a class list containing duplicate type
identifiers succeeds without any error (given each constructor succeeds);
the steps map resolves each type to the last listed class declaring it —
later registrations silently overwrite earlier ones — and a subsequent
EXECUTE for the type dispatches to that last class. -/
theorem duplicate_type_last_wins :
    ∀ classes : List StepClass,
      (∀ c ∈ classes, ∃ inst, c.construct = Except.ok inst) →
      initRegistry classes = Except.ok (buildSteps classes)
      ∧ (∀ t, lookupStep (buildSteps classes) t = lastWithType classes t)
      ∧ (∀ (t : String) (cls : StepClass) (params : JsonObj)
          (ac : Option ApprovalContext) (ps : Option JsonObj),
          lastWithType classes t = some cls →
          executeStep (buildSteps classes) t params ac ps =
            executeFound cls params ac ps) := by
  intro classes h
  have hlook : ∀ t, lookupStep (buildSteps classes) t = lastWithType classes t := by
    intro t
    rw [buildSteps, lookupStep_foldl]
    cases hl : lastWithType classes t <;> simp [hl, lookupStep]
  refine ⟨?_, hlook, ?_⟩
  · rw [initRegistry, except_bind_ok]
    exact registerSteps_ok classes [] h
  · intro t cls params ac ps hl
    exact executeStep_found (buildSteps classes) t cls params ac ps
      ((hlook t).trans hl)

/-- Witness for C10: two classes both declaring type "echo"; construction
succeeds, the map retains the second, and EXECUTE runs the second class's
`run`. -/
theorem duplicate_type_last_wins_witness :
    initRegistry [echoCls, echoCls2] = Except.ok (buildSteps [echoCls, echoCls2])
    ∧ lookupStep (buildSteps [echoCls, echoCls2]) "echo" = some echoCls2
    ∧ executeStep (buildSteps [echoCls, echoCls2]) "echo" [] none none =
      Json.str "second" := by
  have hc : ∀ c ∈ [echoCls, echoCls2], ∃ inst, c.construct = Except.ok inst := by
    intro c hc
    cases hc with
    | head => exact ⟨_, rfl⟩
    | tail _ h2 =>
      cases h2 with
      | head => exact ⟨_, rfl⟩
      | tail _ h3 => cases h3
  have h := duplicate_type_last_wins [echoCls, echoCls2] hc
  refine ⟨h.1, (h.2.1 "echo").trans rfl, ?_⟩
  exact (h.2.2 "echo" echoCls2 [] none none rfl).trans rfl

end StepSdk
